import Mathlib

/-!
# ArcheBlow — verification of the analysis/monitoring engine

Shallow embedding of the ArcheBlow core (files `archeblow_service.py`,
`monitoring.py`, `explorers.py`, `ai_analyst.py`) in Lean 4, together with
theorems settling the specification claims.

Conventions of the embedding:
* Python `float` arithmetic on scores, amounts and confidences is modelled
  with exact rationals (`ℚ`); Unix timestamps are integers (`ℤ`).
* Stateful methods of `MonitoringService` become pure state-transition
  functions on an explicit `MonitoringState`; Python's insertion-ordered
  `dict` becomes an association list with in-place update on key collision.
* Async I/O boundaries (explorer fetch, mixer detection) become
  `Except`-valued functions: `.error` models a raised exception; the
  payload-parsing part of each explorer client is embedded as a pure
  function of an already-decoded payload record (the documented wire
  shape), with the HTTP transport abstracted away.
* The opaque provider-specific bags (`TransactionHop.metadata`,
  `MixerMatch.evidence`, `MonitoringEvent.details`) are omitted: no claim
  observes them and the code only stores them verbatim.
* Qt signal emission and the best-effort webhook dispatch are pure
  side channels (no state of the service is touched by them); they are
  omitted from the state transitions.
-/

namespace ArcheBlow

/-- `Network` enumeration (`archeblow_service.py`). -/
inductive Network where
  | bitcoin
  | ethereum
  | litecoin
  | polygon
  | tron
deriving DecidableEq, Repr

/-- `TransactionHop` (`archeblow_service.py`); the opaque `metadata` bag is
omitted (stored verbatim by the code, observed by no claim). -/
structure TransactionHop where
  tx_hash : String
  from_address : String
  to_address : String
  amount : ℚ
  timestamp : ℤ
deriving DecidableEq, Repr

/-- `MixerMatch` (`archeblow_service.py`); the opaque `evidence` bag is
omitted. -/
structure MixerMatch where
  mixer_name : String
  confidence : ℚ
deriving DecidableEq, Repr

/-- `AddressAnalysisResult` (`archeblow_service.py`). -/
structure AddressAnalysisResult where
  address : String
  network : Network
  risk_score : ℚ
  risk_level : String
  hops : List TransactionHop
  mixers : List MixerMatch
  notes : List String
  sources : List String
deriving DecidableEq, Repr

/-- The four heuristic weights of `RiskModel.__init__`, with the default
values of `default_weights`. -/
structure RiskWeights where
  mixer_detected : ℚ := 6/10
  fan_out : ℚ := 15/100
  fresh_funds : ℚ := 1/10
  rapid_circulation : ℚ := 15/100
deriving DecidableEq, Repr

/-- The default `RiskModel()` weights. -/
def defaultWeights : RiskWeights := {}

/-- Maximum of a nonempty list of integers, written as a fold over the tail
(the embedding of Python's `max`). -/
def intMax (h : ℤ) (t : List ℤ) : ℤ := t.foldl max h

/-- Minimum of a nonempty list of integers. -/
def intMin (h : ℤ) (t : List ℤ) : ℤ := t.foldl min h

/-- `RiskModel._estimate_fan_out`: per distinct sending address, the number
of distinct destinations; maximum across senders, divided by 20 and clamped
to 1. -/
def estimateFanOut (hops : List TransactionHop) : ℚ :=
  if hops.isEmpty then 0
  else
    let senders := (hops.map (·.from_address)).dedup
    let fanOutValues := senders.map
      (fun s => (((hops.filter (fun h => h.from_address = s)).map
        (·.to_address)).dedup).length)
    if fanOutValues.isEmpty then 0
    else
      let maxBranches : ℕ := fanOutValues.foldl max 0
      min ((maxBranches : ℚ) / 20) 1

/-- `RiskModel._is_fresh_funds`: the span between the earliest and latest
hop timestamps is under 86 400 seconds. -/
def isFreshFunds (hops : List TransactionHop) : Bool :=
  match hops with
  | [] => false
  | h :: t =>
      let ts := (h :: t).map (·.timestamp)
      decide (intMax (ts.headI) ts.tail - intMin (ts.headI) ts.tail < 86400)

/-- Ascending-by-timestamp ordering used by `sorted(hops, key=timestamp)`. -/
def hopTsLE (a b : TransactionHop) : Prop := a.timestamp ≤ b.timestamp

instance : DecidableRel hopTsLE := fun a b => Int.decLe a.timestamp b.timestamp

instance : IsTotal TransactionHop hopTsLE := ⟨fun a b => le_total a.timestamp b.timestamp⟩

instance : IsTrans TransactionHop hopTsLE := ⟨fun _ _ _ h1 h2 => le_trans h1 h2⟩

/-- `RiskModel._estimate_rapid_circulation`: average consecutive timestamp
delta over the ascending-sorted hops, normalised against a 10-minute
baseline. -/
def estimateRapidCirculation (hops : List TransactionHop) : ℚ :=
  if hops.length < 2 then 0
  else
    let sortedHops := hops.insertionSort hopTsLE
    let deltas : List ℤ := List.zipWith (fun a b => b.timestamp - a.timestamp)
      sortedHops sortedHops.tail
    let averageDelta : ℚ := ((deltas.sum : ℤ) : ℚ) / (deltas.length : ℚ)
    if averageDelta ≤ 0 then 1
    else min 1 (1 / (averageDelta / 600))

/-- Note text appended when mixers are detected. -/
def noteMixer : String := "Обнаружены совпадения с известными миксерами криптовалюты."

/-- Note text appended when the fan-out ratio exceeds 0.5. -/
def noteFanOut : String := "Высокая степень расщепления средств по множеству адресов."

/-- Note text appended when funds are fresh. -/
def noteFresh : String :=
  "Средства поступили на адрес недавно — требуется дополнительная проверка."

/-- Note text appended when circulation is rapid. -/
def noteCirculation : String :=
  "Средства перемещаются по сети с высокой скоростью, что может указывать на попытку сокрытия следов."

/-- `RiskModel.evaluate`: threads the caller's `notes` list explicitly and
returns the final `(score, notes)` pair.  The four weighted terms are summed
and only the final sum is clamped by `min score 1`. -/
def evaluate (w : RiskWeights) (mixers : List MixerMatch)
    (hops : List TransactionHop) (notes : List String) : ℚ × List String :=
  let score : ℚ := 0
  let (score, notes) :=
    match mixers with
    | [] => (score, notes)
    | m :: rest =>
        let highestConfidence := (rest.map (·.confidence)).foldl max m.confidence
        (score + w.mixer_detected + (1/10) * highestConfidence,
         notes ++ [noteMixer])
  let fanOutRatio := estimateFanOut hops
  let score := score + fanOutRatio * w.fan_out
  let notes := if fanOutRatio > 1/2 then notes ++ [noteFanOut] else notes
  let (score, notes) :=
    if !hops.isEmpty && isFreshFunds hops then
      (score + w.fresh_funds, notes ++ [noteFresh])
    else (score, notes)
  let circulation := estimateRapidCirculation hops
  let score := score + circulation * w.rapid_circulation
  let notes := if circulation > 1/2 then notes ++ [noteCirculation] else notes
  (min score 1, notes)

/-- `ArcheBlowAnalyzer._risk_level_from_score`: the four-tier bucketing. -/
def riskLevelFromScore (score : ℚ) : String :=
  if score ≥ 75/100 then "critical"
  else if score ≥ 5/10 then "high"
  else if score ≥ 25/100 then "moderate"
  else "low"

/-!
## Analyzer orchestration (`ArcheBlowAnalyzer`)

Explorer clients and mixer-intelligence clients are embedded as records
carrying the outcome functions of their async methods: `.error` models a
raised exception crossing the await boundary, `.ok` a normal return.
-/

/-- An explorer client as seen by the analyzer: its network, display name
and the outcome of `fetch_transaction_hops`. -/
structure ExplorerSpec where
  network : Network
  service_name : String
  fetch : String → Except String (List TransactionHop)

/-- A mixer-intelligence client as seen by the analyzer: its display name
and the outcome of `detect_mixers`. -/
structure MixerSpec where
  service_name : String
  detect : String → List TransactionHop → Except String (List MixerMatch)

/-- The analyzer configuration (`ArcheBlowAnalyzer.__init__` fields). -/
structure Analyzer where
  explorers : List ExplorerSpec
  mixers : List MixerSpec
  weights : RiskWeights := {}

/-- `ArcheBlowAnalyzer._select_explorer`: first client registered for the
network, else a `LookupError`. -/
def selectExplorer (a : Analyzer) (network : Network) : Except String ExplorerSpec :=
  match a.explorers.find? (fun c => c.network = network) with
  | some c => .ok c
  | none => .error "No explorer client registered"

/-- Concatenation of the successful results of a list of per-source
outcomes, in source order; failed outcomes contribute nothing (the loop
body of `_gather_mixer_matches` after `asyncio.gather(…,
return_exceptions=True)`). -/
def collectOks (results : List (Except String (List MixerMatch))) : List MixerMatch :=
  results.foldl
    (fun acc r => match r with
      | .error _ => acc
      | .ok ms => acc ++ ms) []

/-- `ArcheBlowAnalyzer._gather_mixer_matches`: every configured source is
invoked with `(address, hops)`; exceptions are captured per source and
skipped, successful results are concatenated. -/
def gatherMixerMatches (a : Analyzer) (address : String)
    (hops : List TransactionHop) : List MixerMatch :=
  if a.mixers.isEmpty then []
  else collectOks (a.mixers.map (fun c => c.detect address hops))

/-- De-duplication preserving first-seen order (`dict.fromkeys`). -/
def dedupKeepFirst : List String → List String
  | [] => []
  | s :: t => s :: dedupKeepFirst (t.filter (fun x => x ≠ s))
termination_by l => l.length
decreasing_by
  simp only [List.length_cons]
  exact Nat.lt_succ_of_le (List.length_filter_le _ _)

/-- `ArcheBlowAnalyzer.analyze`: select the explorer, fetch hops
(errors propagate), gather mixer matches (errors absorbed), score, bucket,
and assemble the result. -/
def analyze (a : Analyzer) (address : String) (network : Network) :
    Except String AddressAnalysisResult :=
  match selectExplorer a network with
  | .error e => .error e
  | .ok explorer =>
    match explorer.fetch address with
    | .error e => .error e
    | .ok hops =>
      let mixers := gatherMixerMatches a address hops
      let (riskScore, notes) := evaluate a.weights mixers hops []
      let riskLevel := riskLevelFromScore riskScore
      let sources := explorer.service_name :: a.mixers.map (·.service_name)
      let uniqueSources := dedupKeepFirst sources
      .ok {
        address := address
        network := network
        risk_score := riskScore
        risk_level := riskLevel
        hops := hops
        mixers := mixers
        notes := notes
        sources := uniqueSources
      }

/-!
## Monitoring service (`monitoring.py`)

`MonitoringService` becomes a pure state machine on `MonitoringState`;
methods take the current timestamp `now : ℤ` explicitly (the embedding of
`_current_timestamp()`).  Qt signal emission and webhook dispatch touch no
service state and are omitted.  `_resolve_service_name` (a lookup in the
static `API_SERVICE_KEYS` table) is kept abstract by storing the raw
`service_id` as the event source, which is what every claim observes.
-/

/-- `MonitoringEvent` (`monitoring.py`); the `details` bag is omitted. -/
structure MonitoringEvent where
  timestamp : ℤ
  level : String
  category : String
  source : String
  message : String
deriving DecidableEq, Repr

/-- `MonitoringWatch` (`monitoring.py`). -/
structure MonitoringWatch where
  address : String
  network : Network
  created_at : ℤ
  expires_at : ℤ
  comment : String := ""
deriving DecidableEq, Repr

/-- The per-provider health record kept in `MonitoringService._api_state`. -/
structure ApiProviderState where
  status : String
  failures : ℕ
  last_error : Option ℤ
  last_error_message : Option String
  last_success : Option ℤ
  last_message : Option String
deriving DecidableEq, Repr

/-- The fresh record installed by `setdefault` when a provider is first
seen. -/
def freshApiState : ApiProviderState :=
  { status := "ok", failures := 0, last_error := none,
    last_error_message := none, last_success := none, last_message := none }

/-- The mutable state of a `MonitoringService` instance. -/
structure MonitoringState where
  events : List MonitoringEvent
  watches : List ((String × Network) × MonitoringWatch)
  api_state : List (String × ApiProviderState)
deriving DecidableEq, Repr

/-- The state right after `MonitoringService.__init__`. -/
def initialMonitoringState : MonitoringState :=
  { events := [], watches := [], api_state := [] }

/-- Insertion-ordered `dict` update: replace the value in place when the
key is present, append otherwise. -/
def updateAssoc {κ α : Type} [DecidableEq κ] :
    List (κ × α) → κ → α → List (κ × α)
  | [], k, v => [(k, v)]
  | (k', v') :: t, k, v =>
      if k' = k then (k, v) :: t else (k', v') :: updateAssoc t k v

/-- First value stored under a key in an association list (`dict` lookup). -/
def lookupAssoc {κ α : Type} [DecidableEq κ] :
    List (κ × α) → κ → Option α
  | [], _ => none
  | (k', v') :: t, k => if k' = k then some v' else lookupAssoc t k

/-- `MonitoringService._register_event`: append, truncate to the most
recent 200 entries. -/
def registerEvent (s : MonitoringState) (e : MonitoringEvent) : MonitoringState :=
  let events := s.events ++ [e]
  { s with events := if events.length > 200 then events.drop (events.length - 200) else events }

/-- `MonitoringService.log`: build the event and register it. -/
def logEvent (s : MonitoringState) (now : ℤ) (level message source category : String) :
    MonitoringEvent × MonitoringState :=
  let event : MonitoringEvent :=
    { timestamp := now, level := level, category := category,
      source := source, message := message }
  (event, registerEvent s event)

/-- `MonitoringService.record_api_error`: `setdefault` the provider record,
set status to `"error"`, increment the failure counter, stamp the error,
and always log an error event. -/
def recordApiError (s : MonitoringState) (now : ℤ) (service_id message : String) :
    MonitoringEvent × MonitoringState :=
  let state0 := (lookupAssoc s.api_state service_id).getD freshApiState
  let state1 : ApiProviderState :=
    { state0 with
        status := "error"
        failures := state0.failures + 1
        last_error := some now
        last_error_message := some message
        last_message := some message }
  let s1 := { s with api_state := updateAssoc s.api_state service_id state1 }
  logEvent s1 now "error" message service_id "api"

/-- `MonitoringService.record_api_success`: `setdefault` the provider
record, set status to `"ok"`, stamp the success, and log a recovery
informational event only when the (never reset) failure counter is
nonzero. -/
def recordApiSuccess (s : MonitoringState) (now : ℤ) (service_id message : String) :
    Option MonitoringEvent × MonitoringState :=
  let state0 := (lookupAssoc s.api_state service_id).getD freshApiState
  let state1 : ApiProviderState :=
    { state0 with
        status := "ok"
        last_success := some now
        last_message := some message }
  let s1 := { s with api_state := updateAssoc s.api_state service_id state1 }
  if state1.failures ≠ 0 then
    let (event, s2) := logEvent s1 now "info" message service_id "api"
    (some event, s2)
  else (none, s1)

/-- Upper-case network name (`network.name.upper()` on the enum member). -/
def networkNameUpper : Network → String
  | .bitcoin => "BITCOIN"
  | .ethereum => "ETHEREUM"
  | .litecoin => "LITECOIN"
  | .polygon => "POLYGON"
  | .tron => "TRON"

/-- `MonitoringService.schedule_watch`: store the watch under
`(address.lower(), network)` with `expires_at = now + days*86400`,
overwriting any prior entry, then log an informational event. -/
def scheduleWatch (s : MonitoringState) (now : ℤ) (address : String)
    (network : Network) (days : ℤ) (comment : Option String) :
    MonitoringWatch × MonitoringState :=
  let expires_at := now + days * 86400
  let key := (address.toLower, network)
  let watch : MonitoringWatch :=
    { address := address, network := network, created_at := now,
      expires_at := expires_at, comment := comment.getD "" }
  let s1 := { s with watches := updateAssoc s.watches key watch }
  let (_, s2) := logEvent s1 now "info"
    ("Мониторинг включен для адреса " ++ address ++ " (" ++
      networkNameUpper network ++ ").")
    "monitoring" "watch"
  (watch, s2)

/-- Ascending-by-expiry ordering used by `active_watches`. -/
def watchLE (a b : MonitoringWatch) : Prop := a.expires_at ≤ b.expires_at

instance : DecidableRel watchLE := fun a b => Int.decLe a.expires_at b.expires_at

instance : IsTotal MonitoringWatch watchLE := ⟨fun a b => le_total a.expires_at b.expires_at⟩

instance : IsTrans MonitoringWatch watchLE := ⟨fun _ _ _ h1 h2 => le_trans h1 h2⟩

/-- `MonitoringService.active_watches`: the stored watches whose
`expires_at` has not passed, ascending by expiry.  A pure read — the watch
table is not modified, so expired entries stay in storage. -/
def activeWatches (s : MonitoringState) (now : ℤ) : List MonitoringWatch :=
  ((s.watches.map (·.2)).filter (fun w => w.expires_at ≥ now)).insertionSort watchLE

/-!
## Explorer clients (`explorers.py`)

The HTTP transport is abstracted away: `fetch_transaction_hops` is embedded
from the point where the decoded JSON payload is in hand, as a pure
function of a typed payload record following the documented wire shape.
Fields the code reads through `.get(...)` with tolerant coercions become
`Option`-typed fields (`none` = absent/unparsable); `_coerce_timestamp`'s
fallback to the current time is the explicit `now` parameter.
-/

/-- Python's `str.strip()`: drop whitespace from both ends (modelled on
the character list). -/
def pyStrip (s : String) : String :=
  String.mk (((s.toList.dropWhile Char.isWhitespace).reverse.dropWhile
    Char.isWhitespace).reverse)

/-- Python's `str.startswith(pre)` (modelled on the character list). -/
def pyStartsWith (s pre : String) : Bool := pre.toList.isPrefixOf s.toList

/-- `_safe_address`: substitute the sentinel for absent or blank values. -/
def safeAddress (value : Option String) : String :=
  match value with
  | none => "Неизвестно"
  | some s =>
      let text := pyStrip s
      if text = "" then "Неизвестно" else text

/-- `_coerce_timestamp` on an optional numeric field: the number itself, or
the current time when absent/unparsable. -/
def coerceTimestamp (value : Option ℤ) (now : ℤ) : ℤ := value.getD now

/-- `_satoshi_to_btc`: divide by 1e8, coercing invalid values to 0. -/
def satoshiToBtc (value : Option ℚ) : ℚ := value.getD 0 / 100000000

/-- `_wei_to_eth`: divide by 1e18, coercing invalid values to 0. -/
def weiToEth (value : Option ℚ) : ℚ := value.getD 0 / 1000000000000000000

/-- Descending-by-timestamp ordering used by `hops.sort(key=…, reverse=True)`. -/
def hopTsGE (a b : TransactionHop) : Prop := b.timestamp ≤ a.timestamp

instance : DecidableRel hopTsGE := fun a b => Int.decLe b.timestamp a.timestamp

instance : IsTotal TransactionHop hopTsGE := ⟨fun a b => le_total b.timestamp a.timestamp⟩

instance : IsTrans TransactionHop hopTsGE := ⟨fun _ _ _ h1 h2 => le_trans h2 h1⟩

/-- "Newest first": every hop's timestamp is ≥ every later hop's
timestamp. -/
def sortedDescByTimestamp (hops : List TransactionHop) : Prop :=
  hops.Pairwise hopTsGE

instance (hops : List TransactionHop) : Decidable (sortedDescByTimestamp hops) :=
  List.instDecidablePairwise hops

/-- One `prev_out` object of a blockchain.com transaction input. -/
structure BtcPrevOut where
  addr : Option String
deriving DecidableEq, Repr

/-- One input of a blockchain.com transaction. -/
structure BtcInput where
  prev_out : Option BtcPrevOut
  addr : Option String
deriving DecidableEq, Repr

/-- One output of a blockchain.com transaction. -/
structure BtcOutput where
  addr : Option String
  value : Option ℚ
deriving DecidableEq, Repr

/-- One transaction of a blockchain.com `rawaddr` payload. -/
structure BtcTx where
  hash : Option String
  time : Option ℤ
  inputs : List BtcInput
  out : List BtcOutput
deriving DecidableEq, Repr

/-- A blockchain.com `rawaddr` payload: `{txs: [...]}`. -/
structure BtcPayload where
  txs : List BtcTx
deriving DecidableEq, Repr

/-- The hop synthesis loop of
`BlockchainComExplorerClient.fetch_transaction_hops`: one hop per
(input, output) pair of every transaction, then sort newest first and cap
at 200. -/
def blockchainComHops (now : ℤ) (p : BtcPayload) : List TransactionHop :=
  let hops := p.txs.flatMap (fun tx =>
    let txHash := tx.hash.getD ""
    let timestamp := coerceTimestamp tx.time now
    tx.inputs.flatMap (fun inputEntry =>
      let fromAddr :=
        match inputEntry.prev_out with
        | some prevOut => safeAddress prevOut.addr
        | none => safeAddress inputEntry.addr
      tx.out.map (fun outputEntry =>
        { tx_hash := txHash
          from_address := fromAddr
          to_address := safeAddress outputEntry.addr
          amount := satoshiToBtc outputEntry.value
          timestamp := timestamp })))
  (hops.insertionSort hopTsGE).take 200

/-- `BlockchainComExplorerClient.fetch_transaction_hops`: raises
`UnsupportedNetworkError` off-network, otherwise parses the payload. -/
def blockchainComFetch (network : Network) (now : ℤ) (p : BtcPayload) :
    Except String (List TransactionHop) :=
  if network ≠ Network.bitcoin then
    .error "Сеть не поддерживается blockchain.com API."
  else .ok (blockchainComHops now p)

/-- One entry of an Etherscan `txlist` result. -/
structure EthTxItem where
  hash : Option String
  fromAddr : Option String
  toAddr : Option String
  timeStamp : Option ℤ
  value : Option ℚ
deriving DecidableEq, Repr

/-- An Etherscan `txlist` payload: `{status, message, result: [...]}`.
(The alternative mapping-shaped `result` carrying error details only feeds
the error message text and is folded into `message` here.) -/
structure EtherscanPayload where
  status : String
  message : String
  result : List EthTxItem
deriving DecidableEq, Repr

/-- The per-item hop construction of
`EtherscanExplorerClient.fetch_transaction_hops`. -/
def etherscanItemToHop (now : ℤ) (item : EthTxItem) : TransactionHop :=
  { tx_hash := item.hash.getD ""
    from_address := safeAddress item.fromAddr
    to_address := safeAddress item.toAddr
    amount := weiToEth item.value
    timestamp := coerceTimestamp item.timeStamp now }

/-- `EtherscanExplorerClient.fetch_transaction_hops` after the response is
decoded: non-"1" status is an API error unless the message is
"no transactions found"; otherwise hops are built in payload order and
capped at 200 — the client does not re-sort (it relies on the `sort=desc`
request parameter). -/
def etherscanFetch (now : ℤ) (p : EtherscanPayload) :
    Except String (List TransactionHop) :=
  let status := if p.status = "" then "0" else p.status
  if status ≠ "1" then
    if p.message.toLower ≠ "no transactions found" then
      .error ("Etherscan API вернул сообщение об ошибке: " ++ p.message)
    else .ok []
  else .ok ((p.result.map (etherscanItemToHop now)).take 200)

/-!
## TRON address conversion (`explorers.py`: `_tron_address`,
`_base58check_encode`)

`hashlib.sha256` is embedded as a full executable SHA-256 over byte lists
(bytes as naturals below 256, 32-bit words as naturals reduced mod `2^32`).
-/

/-- Reduce to a 32-bit word. -/
def w32 (x : ℕ) : ℕ := x % 4294967296

/-- Right rotation of a 32-bit word by `n` places. -/
def rotr32 (n x : ℕ) : ℕ := w32 (x / 2 ^ n + x % 2 ^ n * 2 ^ (32 - n))

/-- Logical right shift. -/
def shr32 (n x : ℕ) : ℕ := x / 2 ^ n

/-- 32-bit complement. -/
def not32 (x : ℕ) : ℕ := Nat.xor x 4294967295

/-- SHA-256 `Ch` function. -/
def shaCh (x y z : ℕ) : ℕ := Nat.xor (Nat.land x y) (Nat.land (not32 x) z)

/-- SHA-256 `Maj` function. -/
def shaMaj (x y z : ℕ) : ℕ :=
  Nat.xor (Nat.xor (Nat.land x y) (Nat.land x z)) (Nat.land y z)

/-- SHA-256 big Σ₀. -/
def bigSigma0 (x : ℕ) : ℕ := Nat.xor (Nat.xor (rotr32 2 x) (rotr32 13 x)) (rotr32 22 x)

/-- SHA-256 big Σ₁. -/
def bigSigma1 (x : ℕ) : ℕ := Nat.xor (Nat.xor (rotr32 6 x) (rotr32 11 x)) (rotr32 25 x)

/-- SHA-256 small σ₀. -/
def smallSigma0 (x : ℕ) : ℕ := Nat.xor (Nat.xor (rotr32 7 x) (rotr32 18 x)) (shr32 3 x)

/-- SHA-256 small σ₁. -/
def smallSigma1 (x : ℕ) : ℕ := Nat.xor (Nat.xor (rotr32 17 x) (rotr32 19 x)) (shr32 10 x)

/-- The 64 SHA-256 round constants (decimal). -/
def shaK : List ℕ :=
  [1116352408, 1899447441, 3049323471, 3921009573, 961987163,
   1508970993, 2453635748, 2870763221, 3624381080, 310598401,
   607225278, 1426881987, 1925078388, 2162078206, 2614888103,
   3248222580, 3835390401, 4022224774, 264347078, 604807628,
   770255983, 1249150122, 1555081692, 1996064986, 2554220882,
   2821834349, 2952996808, 3210313671, 3336571891, 3584528711,
   113926993, 338241895, 666307205, 773529912, 1294757372,
   1396182291, 1695183700, 1986661051, 2177026350, 2456956037,
   2730485921, 2820302411, 3259730800, 3345764771, 3516065817,
   3600352804, 4094571909, 275423344, 430227734, 506948616,
   659060556, 883997877, 958139571, 1322822218, 1537002063,
   1747873779, 1955562222, 2024104815, 2227730452, 2361852424,
   2428436474, 2756734187, 3204031479, 3329325298]

/-- The SHA-256 initial hash values (decimal). -/
def shaH0 : List ℕ :=
  [1779033703, 3144134277, 1013904242, 2773480762,
   1359893119, 2600822924, 528734635, 1541459225]

/-- Big-endian byte expansion of `x` to `n` bytes. -/
def beBytes (n x : ℕ) : List ℕ :=
  (List.range n).map (fun i => x / 2 ^ (8 * (n - 1 - i)) % 256)

/-- SHA-256 padding: append `0x80`, zeros up to 56 mod 64 bytes, then the
message bit length as 8 big-endian bytes. -/
def sha256Pad (msg : List ℕ) : List ℕ :=
  let L := msg.length
  let zeros := (120 - (L + 1) % 64) % 64
  msg ++ [128] ++ List.replicate zeros 0 ++ beBytes 8 (8 * L)

/-- Split a byte list into 64-byte chunks (structural recursion on a fuel
bound, so that the definition evaluates inside the kernel). -/
def chunks64Go : ℕ → List ℕ → List (List ℕ)
  | 0, _ => []
  | _, [] => []
  | fuel + 1, a :: t => ((a :: t).take 64) :: chunks64Go fuel ((a :: t).drop 64)

/-- Split a byte list into 64-byte chunks. -/
def chunks64 (l : List ℕ) : List (List ℕ) := chunks64Go l.length l

/-- The 16 initial 32-bit message words of a 64-byte block, big-endian. -/
def blockWords (block : List ℕ) : List ℕ :=
  (List.range 16).map (fun i =>
    block.getD (4 * i) 0 * 2 ^ 24 + block.getD (4 * i + 1) 0 * 2 ^ 16 +
    block.getD (4 * i + 2) 0 * 2 ^ 8 + block.getD (4 * i + 3) 0)

/-- Extend 16 message words to the 64-word SHA-256 schedule. -/
def shaSchedule (ws : List ℕ) : List ℕ :=
  (List.range 48).foldl
    (fun acc k =>
      acc ++ [w32 (acc.getD k 0 + smallSigma0 (acc.getD (k + 1) 0) +
        acc.getD (k + 9) 0 + smallSigma1 (acc.getD (k + 14) 0))])
    ws

/-- The eight SHA-256 working registers. -/
structure ShaRegs where
  a : ℕ
  b : ℕ
  c : ℕ
  d : ℕ
  e : ℕ
  f : ℕ
  g : ℕ
  h : ℕ
deriving Repr

/-- One SHA-256 compression round. -/
def compressRound (r : ShaRegs) (ki wi : ℕ) : ShaRegs :=
  let t1 := w32 (r.h + bigSigma1 r.e + shaCh r.e r.f r.g + ki + wi)
  let t2 := w32 (bigSigma0 r.a + shaMaj r.a r.b r.c)
  { a := w32 (t1 + t2), b := r.a, c := r.b, d := r.c,
    e := w32 (r.d + t1), f := r.e, g := r.f, h := r.g }

/-- Compress one 64-byte block into the running hash state. -/
def compressBlock (hs : List ℕ) (block : List ℕ) : List ℕ :=
  let ws := shaSchedule (blockWords block)
  let init : ShaRegs :=
    { a := hs.getD 0 0, b := hs.getD 1 0, c := hs.getD 2 0, d := hs.getD 3 0,
      e := hs.getD 4 0, f := hs.getD 5 0, g := hs.getD 6 0, h := hs.getD 7 0 }
  let fin := (List.zip shaK ws).foldl (fun r kw => compressRound r kw.1 kw.2) init
  [w32 (hs.getD 0 0 + fin.a), w32 (hs.getD 1 0 + fin.b),
   w32 (hs.getD 2 0 + fin.c), w32 (hs.getD 3 0 + fin.d),
   w32 (hs.getD 4 0 + fin.e), w32 (hs.getD 5 0 + fin.f),
   w32 (hs.getD 6 0 + fin.g), w32 (hs.getD 7 0 + fin.h)]

/-- SHA-256 of a byte list (the embedding of `hashlib.sha256(...).digest()`). -/
def sha256 (msg : List ℕ) : List ℕ :=
  let blocks := chunks64 (sha256Pad msg)
  let hs := blocks.foldl compressBlock shaH0
  hs.flatMap (beBytes 4)

/-- The fixed base58 alphabet `_B58_ALPHABET`. -/
def b58Alphabet : List Char :=
  "123456789ABCDEFGHJKLMNPQRSTUVWXYZabcdefghijkmnopqrstuvwxyz".toList

/-- The `while num > 0` loop of `_base58check_encode`: peel remainders mod
58, prepending the alphabet character for each. -/
def b58EncodeLoop (num : ℕ) (encoded : List Char) : List Char :=
  if h : num = 0 then encoded
  else b58EncodeLoop (num / 58) (b58Alphabet.getD (num % 58) '1' :: encoded)
termination_by num
decreasing_by exact Nat.div_lt_self (Nat.pos_of_ne_zero h) (by norm_num)

/-- `int.from_bytes(payload, "big")`. -/
def bytesToNatBE (bytes : List ℕ) : ℕ := bytes.foldl (fun acc b => acc * 256 + b) 0

/-- `len(payload) - len(payload.lstrip(b"\x00"))`. -/
def countLeadingZeroBytes : List ℕ → ℕ
  | [] => 0
  | b :: t => if b = 0 then countLeadingZeroBytes t + 1 else 0

/-- `_base58check_encode`: append the 4-byte double-SHA-256 checksum,
read the payload as a big-endian integer, run the division loop, and
prepend one `'1'` per leading zero byte (with the Python `or "1"` fallback
for an empty result). -/
def base58checkEncode (data : List ℕ) : String :=
  let checksum := (sha256 (sha256 data)).take 4
  let payload := data ++ checksum
  let num := bytesToNatBE payload
  let encoded := String.mk (b58EncodeLoop num [])
  let leadingZeroBytes := countLeadingZeroBytes payload
  let result := String.mk (List.replicate leadingZeroBytes '1') ++ encoded
  if result = "" then "1" else result

/-- The hex digits accepted by `_tron_address`. -/
def isHexChar (c : Char) : Bool := "0123456789abcdefABCDEF".toList.contains c

/-- Numeric value of a hex digit. -/
def hexVal (c : Char) : ℕ :=
  if c.isDigit then c.toNat - '0'.toNat
  else if 'a' ≤ c ∧ c ≤ 'f' then c.toNat - 'a'.toNat + 10
  else if 'A' ≤ c ∧ c ≤ 'F' then c.toNat - 'A'.toNat + 10
  else 0

/-- `bytes.fromhex`: pairs of hex digits to bytes; `none` on odd length
(the `ValueError` path). -/
def hexPairsToBytes : List Char → Option (List ℕ)
  | [] => some []
  | [_] => none
  | a :: b :: t =>
      match hexPairsToBytes t with
      | none => none
      | some bytes => some ((16 * hexVal a + hexVal b) :: bytes)

/-- `_tron_address`: keep the sentinel and already-base58 (`T...`) values;
convert long all-hex identifiers through base58check; pass anything else
through unchanged. -/
def tronAddress (raw : Option String) : String :=
  let value := safeAddress raw
  if value = "Неизвестно" then value
  else if pyStartsWith value "T" then value
  else if value.toList.all isHexChar ∧ value.length ≥ 42 then
    match hexPairsToBytes value.toList with
    | none => value
    | some data => base58checkEncode data
  else value

/-!
Modelled from the spec (refinement counterpart for the claim about
`_base58check_encode`): the encoding as the specification words it —
"append a 4-byte checksum (double cryptographic hash of the payload, first
4 bytes), interpret the checksummed payload as a big integer, repeatedly
divide by 58 mapping remainders through a fixed 58-character alphabet, and
preserve the count of leading zero bytes as literal leading `'1'`
characters."
-/

/-- The base-58 digit list of `n`, least significant first, by repeated
division by 58. -/
def b58DigitsRev (n : ℕ) : List ℕ :=
  if h : n = 0 then []
  else n % 58 :: b58DigitsRev (n / 58)
termination_by n
decreasing_by exact Nat.div_lt_self (Nat.pos_of_ne_zero h) (by norm_num)

/-- The spec's wording of the base58-check conversion: checksum = first 4
bytes of the double SHA-256 of the payload; the checksummed payload read
as a big integer gives the digit string by repeated division by 58 through
the fixed alphabet; one literal `'1'` per leading zero byte is prepended. -/
def base58checkEncodeSpec (data : List ℕ) : String :=
  let checksum := (sha256 (sha256 data)).take 4
  let checksummed := data ++ checksum
  let digitChars :=
    ((b58DigitsRev (bytesToNatBE checksummed)).reverse).map
      (fun d => b58Alphabet.getD d '1')
  String.mk (List.replicate (countLeadingZeroBytes checksummed) '1' ++ digitChars)

/-!
## Artificial analyst (`ai_analyst.py`)

The claim (C7) observes only the derived `confidence`; the purely textual
fields (`summary`, `highlights`, `recommendations`) perform no computation
beyond number formatting and are omitted from the briefing record.
-/

/-- `AnalystBriefing` (`ai_analyst.py`), restricted to the non-textual
fields. -/
structure AnalystBriefing where
  address : String
  network : Network
  generated_at : ℤ
  confidence : ℚ
  risk_level : String
deriving DecidableEq, Repr

/-- `ArtificialAnalyst._hours_since`: hours elapsed since a timestamp,
clamped to ≥ 0. -/
def hoursSince (now timestamp : ℤ) : ℚ := ((max 0 (now - timestamp) : ℤ) : ℚ) / 3600

/-- `max((hop.timestamp for hop in hops), default=0)`. -/
def lastActivity (hops : List TransactionHop) : ℤ :=
  match hops.map (·.timestamp) with
  | [] => 0
  | t :: ts => intMax t ts

/-- The `recent_window` flag of `generate_briefing`: a known (nonzero) last
activity at most 24 hours old. -/
def recentWindow (now : ℤ) (hops : List TransactionHop) : Bool :=
  let last := lastActivity hops
  if last ≠ 0 then decide (hoursSince now last ≤ 24) else false

/-- `ArtificialAnalyst._estimate_confidence`. -/
def estimateConfidence (hopCount : ℕ) (mixers : List MixerMatch)
    (recent : Bool) : ℚ :=
  let base : ℚ := if hopCount ≥ 3 then 4/10 else 25/100
  let coverage : ℚ := min (45/100) ((hopCount : ℚ) * (2/100))
  let mixerBonus : ℚ := if !mixers.isEmpty then 1/10 else 0
  let recencyBonus : ℚ := if recent then 5/100 else 0
  min 1 (base + coverage + mixerBonus + recencyBonus)

/-- `ArtificialAnalyst.generate_briefing`, restricted to the fields kept in
`AnalystBriefing`; `now` is the injected clock reading. -/
def generateBriefing (now : ℤ) (result : AddressAnalysisResult) : AnalystBriefing :=
  let hops := result.hops
  let mixers := result.mixers
  let recent := recentWindow now hops
  { address := result.address
    network := result.network
    generated_at := now
    confidence := estimateConfidence hops.length mixers recent
    risk_level := result.risk_level }

/-!
## Theorems settling the claims
-/

/-- C9: `RiskModel.evaluate` on an empty mixer-match sequence and an empty
hop sequence returns exactly 0.0 and appends no notes, and the risk level
the orchestrator derives from that score is `"low"`. -/
theorem evaluate_empty_inputs_zero_low (notes : List String) :
    evaluate defaultWeights [] [] notes = (0, notes) ∧
    riskLevelFromScore (evaluate defaultWeights [] [] notes).1 = "low" := by
  constructor
  · simp [evaluate, estimateFanOut, estimateRapidCirculation, defaultWeights]
    norm_num
  · simp [evaluate, estimateFanOut, estimateRapidCirculation, defaultWeights,
      riskLevelFromScore]
    norm_num

/-- C4: the orchestrator's risk-level derivation is the boundary-exact step
function: ≥ 0.75 critical, [0.5, 0.75) high, [0.25, 0.5) moderate, below
0.25 low. -/
theorem riskLevelFromScore_step (s : ℚ) :
    (75/100 ≤ s → riskLevelFromScore s = "critical") ∧
    (5/10 ≤ s → s < 75/100 → riskLevelFromScore s = "high") ∧
    (25/100 ≤ s → s < 5/10 → riskLevelFromScore s = "moderate") ∧
    (s < 25/100 → riskLevelFromScore s = "low") := by
  unfold riskLevelFromScore
  refine ⟨fun h => ?_, fun h1 h2 => ?_, fun h1 h2 => ?_, fun h => ?_⟩ <;>
    split_ifs <;> first | rfl | linarith

/-- C4 witness: the boundary samples of the claim, including
0.75 → critical, 0.749999 → high, 0.5 → high, 0.499999 → moderate,
0.25 → moderate, 0.249999 → low. -/
theorem riskLevelFromScore_step_witness :
    riskLevelFromScore (75/100) = "critical" ∧
    riskLevelFromScore (749999/1000000) = "high" ∧
    riskLevelFromScore (5/10) = "high" ∧
    riskLevelFromScore (499999/1000000) = "moderate" ∧
    riskLevelFromScore (25/100) = "moderate" ∧
    riskLevelFromScore (249999/1000000) = "low" :=
  ⟨(riskLevelFromScore_step (75/100)).1 (by norm_num),
   (riskLevelFromScore_step (749999/1000000)).2.1 (by norm_num) (by norm_num),
   (riskLevelFromScore_step (5/10)).2.1 (by norm_num) (by norm_num),
   (riskLevelFromScore_step (499999/1000000)).2.2.1 (by norm_num) (by norm_num),
   (riskLevelFromScore_step (25/100)).2.2.1 (by norm_num) (by norm_num),
   (riskLevelFromScore_step (249999/1000000)).2.2.2 (by norm_num)⟩

/-- C7: for every analysis result and clock reading, the briefing
confidence is `min 1 (base + min 0.45 (hop_count·0.02) + mixer_bonus +
recency_bonus)` with base 0.4 when the hop count is at least 3 and 0.25
otherwise, mixer bonus 0.1 when any mixer matched, and recency bonus 0.05
when the last activity lies in the 24-hour recent window. -/
theorem generateBriefing_confidence_formula (now : ℤ) (result : AddressAnalysisResult) :
    (generateBriefing now result).confidence =
      min 1 ((if result.hops.length ≥ 3 then 4/10 else 25/100) +
        min (45/100) ((result.hops.length : ℚ) * (2/100)) +
        (if !result.mixers.isEmpty then 1/10 else 0) +
        (if recentWindow now result.hops then 5/100 else 0)) := rfl

/-- The mixer heuristic term of `RiskModel.evaluate`: weight plus a tenth
of the highest match confidence, when any match exists. -/
def mixerTermOf (w : RiskWeights) (mixers : List MixerMatch) : ℚ :=
  match mixers with
  | [] => 0
  | m :: rest => w.mixer_detected + (1/10) * ((rest.map (·.confidence)).foldl max m.confidence)

/-- The fan-out heuristic term of `RiskModel.evaluate`. -/
def fanOutTermOf (w : RiskWeights) (hops : List TransactionHop) : ℚ :=
  estimateFanOut hops * w.fan_out

/-- The freshness heuristic term of `RiskModel.evaluate`. -/
def freshTermOf (w : RiskWeights) (hops : List TransactionHop) : ℚ :=
  if !hops.isEmpty && isFreshFunds hops then w.fresh_funds else 0

/-- The rapid-circulation heuristic term of `RiskModel.evaluate`. -/
def circulationTermOf (w : RiskWeights) (hops : List TransactionHop) : ℚ :=
  estimateRapidCirculation hops * w.rapid_circulation

/-- The score of `evaluate` is the single clamp of the plain sum of the
four weighted heuristic terms. -/
theorem evaluate_fst (w : RiskWeights) (mixers : List MixerMatch)
    (hops : List TransactionHop) (notes : List String) :
    (evaluate w mixers hops notes).1 =
      min (mixerTermOf w mixers + fanOutTermOf w hops + freshTermOf w hops +
        circulationTermOf w hops) 1 := by
  unfold evaluate mixerTermOf fanOutTermOf freshTermOf circulationTermOf
  cases mixers <;> dsimp only <;> split_ifs <;> (congr 1; try ring)

/-- A left fold of `max` is at least its initial value. -/
theorem le_foldl_max (init : ℚ) (l : List ℚ) : init ≤ l.foldl max init := by
  induction l generalizing init with
  | nil => exact le_refl init
  | cons x t ih => exact le_trans (le_max_left init x) (ih (max init x))

/-- `estimateFanOut` is nonnegative. -/
theorem estimateFanOut_nonneg (hops : List TransactionHop) : 0 ≤ estimateFanOut hops := by
  unfold estimateFanOut
  dsimp only
  split_ifs
  · norm_num
  · norm_num
  · positivity

/-- `estimateFanOut` never exceeds one. -/
theorem estimateFanOut_le_one (hops : List TransactionHop) : estimateFanOut hops ≤ 1 := by
  unfold estimateFanOut
  dsimp only
  split_ifs <;> first | norm_num | exact min_le_right _ _

/-- `estimateRapidCirculation` is nonnegative. -/
theorem estimateRapidCirculation_nonneg (hops : List TransactionHop) :
    0 ≤ estimateRapidCirculation hops := by
  unfold estimateRapidCirculation
  dsimp only
  split_ifs with h1 h2
  · norm_num
  · norm_num
  · have hpos := lt_of_not_le h2
    exact le_min (by norm_num)
      (le_of_lt (div_pos one_pos (div_pos hpos (by norm_num))))

/-- `estimateRapidCirculation` never exceeds one. -/
theorem estimateRapidCirculation_le_one (hops : List TransactionHop) :
    estimateRapidCirculation hops ≤ 1 := by
  unfold estimateRapidCirculation
  dsimp only
  split_ifs <;> first | norm_num | exact min_le_left _ _

/-- C3: with the default weights, for every combination of heuristic
inputs whose mixer-match confidences lie in [0,1] (the data-model
invariant) — including zero hops, a single hop, and zero-duration spans —
the score of `RiskModel.evaluate` is the sum of the four weighted
heuristic terms clamped exactly once, after summation, and lies within
[0,1]. -/
theorem evaluate_score_clamped_in_unit_interval (mixers : List MixerMatch)
    (hops : List TransactionHop) (notes : List String)
    (hconf : ∀ m ∈ mixers, 0 ≤ m.confidence ∧ m.confidence ≤ 1) :
    (evaluate defaultWeights mixers hops notes).1 =
      min (mixerTermOf defaultWeights mixers + fanOutTermOf defaultWeights hops +
        freshTermOf defaultWeights hops + circulationTermOf defaultWeights hops) 1 ∧
    0 ≤ (evaluate defaultWeights mixers hops notes).1 ∧
    (evaluate defaultWeights mixers hops notes).1 ≤ 1 := by
  refine ⟨evaluate_fst _ _ _ _, ?_, ?_⟩
  · rw [evaluate_fst]
    refine le_min (add_nonneg (add_nonneg (add_nonneg ?_ ?_) ?_) ?_) (by norm_num)
    · unfold mixerTermOf
      match mixers with
      | [] => norm_num
      | m :: rest =>
          have h0 : 0 ≤ m.confidence := (hconf m (List.mem_cons_self m rest)).1
          have h1 : 0 ≤ (rest.map (·.confidence)).foldl max m.confidence :=
            le_trans h0 (le_foldl_max _ _)
          simp only [defaultWeights]
          positivity
    · exact mul_nonneg (estimateFanOut_nonneg hops) (by norm_num [defaultWeights])
    · unfold freshTermOf
      split_ifs <;> norm_num [defaultWeights]
    · exact mul_nonneg (estimateRapidCirculation_nonneg hops) (by norm_num [defaultWeights])
  · rw [evaluate_fst]
    exact min_le_right _ _

/-- C3 witness: a concrete degenerate input — one mixer match with
confidence 0.7 and two hops with a zero-duration timestamp span — stays
within [0,1]. -/
theorem evaluate_score_clamped_in_unit_interval_witness :
    0 ≤ (evaluate defaultWeights [⟨"Tornado Cash", 7/10⟩]
      [⟨"t1", "A", "B", 1, 500⟩, ⟨"t2", "B", "C", 2, 500⟩] []).1 ∧
    (evaluate defaultWeights [⟨"Tornado Cash", 7/10⟩]
      [⟨"t1", "A", "B", 1, 500⟩, ⟨"t2", "B", "C", 2, 500⟩] []).1 ≤ 1 := by
  have h := evaluate_score_clamped_in_unit_interval [⟨"Tornado Cash", 7/10⟩]
    [⟨"t1", "A", "B", 1, 500⟩, ⟨"t2", "B", "C", 2, 500⟩] []
    (by intro m hm; simp only [List.mem_singleton] at hm; subst hm; constructor <;> norm_num)
  exact ⟨h.2.1, h.2.2⟩

/-- C10: `RiskModel.evaluate` changes the caller-supplied notes list only
by appending entries at its end: the prior contents are left unchanged as
an initial segment of the returned list. -/
theorem evaluate_appends_notes (w : RiskWeights) (mixers : List MixerMatch)
    (hops : List TransactionHop) (notes : List String) :
    ∃ appended, (evaluate w mixers hops notes).2 = notes ++ appended := by
  unfold evaluate
  cases mixers <;> dsimp only <;> split_ifs <;>
    simp only [List.append_assoc] <;>
    first
      | exact ⟨[], (List.append_nil _).symm⟩
      | exact ⟨_, rfl⟩

/-- C1: whenever the selected explorer fetch succeeds, a raising
mixer-intelligence source neither aborts the other sources nor the overall
`analyze()` call: the call still succeeds and its mixers list is the
concatenation of the matches of the non-raising sources, in source
order. -/
theorem analyze_mixer_failure_isolation (a : Analyzer) (address : String)
    (network : Network) (explorer : ExplorerSpec) (hops : List TransactionHop)
    (hsel : selectExplorer a network = .ok explorer)
    (hfetch : explorer.fetch address = .ok hops)
    (hraise : ∃ c ∈ a.mixers, ∃ e, c.detect address hops = .error e) :
    ∃ r, analyze a address network = .ok r ∧
      r.mixers = collectOks (a.mixers.map (fun c => c.detect address hops)) := by
  have hmix : gatherMixerMatches a address hops =
      collectOks (a.mixers.map (fun c => c.detect address hops)) := by
    unfold gatherMixerMatches
    split_ifs with h
    · obtain ⟨c, hc, _⟩ := hraise
      rw [List.isEmpty_iff] at h
      simp [h] at hc
    · rfl
  unfold analyze
  rw [hsel]
  dsimp only
  rw [hfetch]
  dsimp only
  exact ⟨_, rfl, hmix⟩

/-- Fixture for the C1 witness: a stub bitcoin explorer returning one
hop. -/
def c1Explorer : ExplorerSpec :=
  { network := .bitcoin
    service_name := "Stub Explorer"
    fetch := fun _ => .ok [⟨"t1", "A", "B", 1, 100⟩] }

/-- Fixture for the C1 witness: a mixer source that raises. -/
def c1FailingMixer : MixerSpec :=
  { service_name := "Failing Source"
    detect := fun _ _ => .error "boom" }

/-- Fixture for the C1 witness: a mixer source that returns one match. -/
def c1OkMixer : MixerSpec :=
  { service_name := "Watchlist Source"
    detect := fun _ _ => .ok [⟨"Blender", 9/10⟩] }

/-- Fixture for the C1 witness: one explorer, one raising and one
succeeding mixer source. -/
def c1Analyzer : Analyzer :=
  { explorers := [c1Explorer], mixers := [c1FailingMixer, c1OkMixer] }

/-- C1 witness: with one raising and one succeeding source configured,
`analyze` succeeds and returns exactly the surviving match. -/
theorem analyze_mixer_failure_isolation_witness :
    ∃ r, analyze c1Analyzer "addr" .bitcoin = .ok r ∧
      r.mixers = collectOks (c1Analyzer.mixers.map
        (fun c => c.detect "addr" [⟨"t1", "A", "B", 1, 100⟩])) :=
  analyze_mixer_failure_isolation c1Analyzer "addr" .bitcoin c1Explorer
    [⟨"t1", "A", "B", 1, 100⟩] rfl rfl
    ⟨c1FailingMixer, by simp [c1Analyzer], "boom", rfl⟩

/-- C2 counterexample: after one `record_api_error` and one
`record_api_success`, a second consecutive `record_api_success` on the
same provider is *not* silent — it emits a further informational event,
because the failure counter is never reset. -/
theorem recordApiSuccess_second_success_emits :
    (recordApiSuccess
      (recordApiSuccess
        (recordApiError initialMonitoringState 0 "etherscan" "down").2
        1 "etherscan" "recovered").2
      2 "etherscan" "still ok").1.isSome = true := by decide

/-- C2 (amended): one `record_api_error` followed by one
`record_api_success` leaves the failure counter at 1 and the status at
"ok" and emits exactly one recovery informational event; a second
consecutive `record_api_success` emits a further informational event as
well (the failure counter is never reset), and a success is silent only
while the provider's failure counter is zero (e.g. on a fresh provider). -/
theorem record_api_error_success_sequence (p m1 m2 m3 : String) (t1 t2 t3 : ℤ) :
    (lookupAssoc (recordApiSuccess (recordApiError initialMonitoringState t1 p m1).2
        t2 p m2).2.api_state p =
      some { status := "ok", failures := 1, last_error := some t1,
             last_error_message := some m1, last_success := some t2,
             last_message := some m2 }) ∧
    (∃ e, (recordApiSuccess (recordApiError initialMonitoringState t1 p m1).2
        t2 p m2).1 = some e ∧ e.level = "info" ∧ e.category = "api") ∧
    ((recordApiSuccess (recordApiError initialMonitoringState t1 p m1).2
        t2 p m2).2.events.map (·.level) = ["error", "info"]) ∧
    (∃ e, (recordApiSuccess (recordApiSuccess
        (recordApiError initialMonitoringState t1 p m1).2 t2 p m2).2
        t3 p m3).1 = some e ∧ e.level = "info") ∧
    (∀ (q m : String) (t : ℤ), (recordApiSuccess initialMonitoringState t q m).1 = none) := by
  refine ⟨?_, ?_, ?_, ?_, ?_⟩ <;>
    simp [recordApiError, recordApiSuccess, logEvent, registerEvent,
      lookupAssoc, updateAssoc, freshApiState, initialMonitoringState]

/-- Updating a key and looking it up returns the new value. -/
theorem lookupAssoc_updateAssoc_self {κ α : Type} [DecidableEq κ]
    (l : List (κ × α)) (k : κ) (v : α) :
    lookupAssoc (updateAssoc l k v) k = some v := by
  induction l with
  | nil => simp [updateAssoc, lookupAssoc]
  | cons kv t ih =>
      obtain ⟨k', v'⟩ := kv
      by_cases h : k' = k <;> simp [updateAssoc, lookupAssoc, h, ih]

/-- Updating one key leaves every other key's lookup unchanged. -/
theorem lookupAssoc_updateAssoc_ne {κ α : Type} [DecidableEq κ]
    (l : List (κ × α)) (k k' : κ) (v : α) (h : k' ≠ k) :
    lookupAssoc (updateAssoc l k v) k' = lookupAssoc l k' := by
  have hne : ¬ k = k' := fun h' => h h'.symm
  induction l with
  | nil => simp [updateAssoc, lookupAssoc, hne]
  | cons kv t ih =>
      obtain ⟨k1, v1⟩ := kv
      by_cases h1 : k1 = k
      · subst h1
        simp [updateAssoc, lookupAssoc, hne]
      · by_cases h2 : k1 = k' <;> simp [updateAssoc, lookupAssoc, h, h1, h2, ih]

/-- An absent key filters to the empty sublist. -/
theorem filter_key_eq_nil {κ α : Type} [DecidableEq κ]
    (l : List (κ × α)) (k : κ) (h : k ∉ l.map (·.1)) :
    l.filter (fun kv => kv.1 = k) = [] := by
  induction l with
  | nil => rfl
  | cons kv t ih =>
      simp only [List.map_cons, List.mem_cons] at h
      push_neg at h
      have hne : ¬ kv.1 = k := fun h' => h.1 h'.symm
      simp [List.filter_cons, hne, ih h.2]

/-- With duplicate-free keys, updating a key leaves exactly one entry for
it, holding the new value. -/
theorem filter_updateAssoc_unique {κ α : Type} [DecidableEq κ]
    (l : List (κ × α)) (k : κ) (v : α) (h : (l.map (·.1)).Nodup) :
    ((updateAssoc l k v).filter (fun kv => kv.1 = k)).map (·.2) = [v] := by
  induction l with
  | nil => simp [updateAssoc, List.filter_cons]
  | cons kv t ih =>
      obtain ⟨k1, v1⟩ := kv
      simp only [List.map_cons, List.nodup_cons] at h
      by_cases h1 : k1 = k
      · subst h1
        have hnil : t.filter (fun kv => kv.1 = k1) = [] := filter_key_eq_nil t k1 h.1
        simp [updateAssoc, List.filter_cons, hnil]
      · simp [updateAssoc, List.filter_cons, h1, ih h.2]

/-- Membership in `activeWatches`: exactly the stored watches whose
expiry has not passed. -/
theorem mem_activeWatches (s : MonitoringState) (now : ℤ) (v : MonitoringWatch) :
    v ∈ activeWatches s now ↔ v ∈ s.watches.map (·.2) ∧ now ≤ v.expires_at := by
  unfold activeWatches
  rw [List.mem_insertionSort, List.mem_filter]
  simp [ge_iff_le]

/-- C6: `schedule_watch` stores a watch keyed by (lower-cased address,
network) with expiry `now + days·86400`, overwriting any prior entry for
that key and leaving other keys untouched; `active_watches` returns
exactly the stored watches with unexpired deadlines, ascending by expiry —
so passing the deadline excludes a watch by read-time filtering while the
entry remains in storage. -/
theorem scheduleWatch_activeWatches_spec (s : MonitoringState) (now : ℤ)
    (address : String) (network : Network) (days : ℤ) (comment : Option String)
    (t : ℤ) (hnodup : (s.watches.map (·.1)).Nodup) :
    (scheduleWatch s now address network days comment).1 =
      { address := address, network := network, created_at := now,
        expires_at := now + days * 86400, comment := comment.getD "" } ∧
    lookupAssoc (scheduleWatch s now address network days comment).2.watches
        (address.toLower, network) =
      some (scheduleWatch s now address network days comment).1 ∧
    (∀ k, k ≠ (address.toLower, network) →
      lookupAssoc (scheduleWatch s now address network days comment).2.watches k =
        lookupAssoc s.watches k) ∧
    (((scheduleWatch s now address network days comment).2.watches.filter
        (fun kv => kv.1 = (address.toLower, network))).map (·.2) =
      [(scheduleWatch s now address network days comment).1]) ∧
    (∀ v, v ∈ activeWatches (scheduleWatch s now address network days comment).2 t ↔
      v ∈ (scheduleWatch s now address network days comment).2.watches.map (·.2) ∧
        t ≤ v.expires_at) ∧
    List.Sorted watchLE (activeWatches (scheduleWatch s now address network days comment).2 t) := by
  refine ⟨rfl, ?_, ?_, ?_, ?_, ?_⟩
  · exact lookupAssoc_updateAssoc_self s.watches _ _
  · intro k hk
    exact lookupAssoc_updateAssoc_ne s.watches _ k _ hk
  · exact filter_updateAssoc_unique s.watches _ _ hnodup
  · intro v
    exact mem_activeWatches _ t v
  · exact List.sorted_insertionSort watchLE _

/-- C6 witness: a concrete schedule on the empty service state, checked at
a time before and derivable for a time after the deadline through the same
theorem instance. -/
theorem scheduleWatch_activeWatches_spec_witness :
    (scheduleWatch initialMonitoringState 100 "AbC" .bitcoin 30 none).1 =
      { address := "AbC", network := .bitcoin, created_at := 100,
        expires_at := 100 + 30 * 86400, comment := "" } ∧
    (∀ v, v ∈ activeWatches
        (scheduleWatch initialMonitoringState 100 "AbC" .bitcoin 30 none).2 2592200 ↔
      v ∈ (scheduleWatch initialMonitoringState 100 "AbC" .bitcoin 30 none).2.watches.map (·.2) ∧
        2592200 ≤ v.expires_at) := by
  have h := scheduleWatch_activeWatches_spec initialMonitoringState 100 "AbC"
    .bitcoin 30 none 2592200 (by simp [initialMonitoringState])
  exact ⟨h.1, h.2.2.2.2.1⟩

/-- A well-formed Etherscan payload whose two transactions arrive oldest
first (timestamps 1 then 2). -/
def c5AscPayload : EtherscanPayload :=
  { status := "1", message := "OK",
    result := [⟨some "a", some "0xsender", some "0xdst", some 1, some 5⟩,
               ⟨some "b", some "0xsender", some "0xdst", some 2, some 5⟩] }

/-- C5 counterexample: the Etherscan client does not re-sort — on a
payload whose transactions arrive oldest first, `fetch_transaction_hops`
succeeds but returns hops that are not sorted descending by timestamp. -/
theorem etherscanFetch_not_sorted_counterexample :
    ∃ hops, etherscanFetch 0 c5AscPayload = .ok hops ∧
      ¬ sortedDescByTimestamp hops := by
  refine ⟨_, rfl, ?_⟩
  decide

/-- C5 (amended): every client caps its result at 200 hops; the
blockchain.com client sorts newest-first before capping on every payload,
while the Etherscan/Polygonscan client returns hops in payload order
without re-sorting (it requests `sort=desc` from the API), so its output
is newest-first only when the payload already is. -/
theorem explorer_hops_cap_and_order :
    (∀ (network : Network) (now : ℤ) (p : BtcPayload) (hops : List TransactionHop),
      blockchainComFetch network now p = .ok hops →
      hops.length ≤ 200 ∧ sortedDescByTimestamp hops) ∧
    (∀ (now : ℤ) (p : EtherscanPayload) (hops : List TransactionHop),
      etherscanFetch now p = .ok hops → hops.length ≤ 200) ∧
    (∀ (now : ℤ) (p : EtherscanPayload) (hops : List TransactionHop),
      etherscanFetch now p = .ok hops →
      (p.result.map (fun i => coerceTimestamp i.timeStamp now)).Pairwise
        (fun a b => b ≤ a) →
      sortedDescByTimestamp hops) := by
  refine ⟨?_, ?_, ?_⟩
  · intro network now p hops h
    unfold blockchainComFetch at h
    split_ifs at h
    cases h
    constructor
    · rw [blockchainComHops, List.length_take]
      exact min_le_left _ _
    · exact List.Pairwise.sublist (List.take_sublist _ _)
        (List.sorted_insertionSort hopTsGE _)
  · intro now p hops h
    unfold etherscanFetch at h
    dsimp only at h
    split_ifs at h
    all_goals cases h
    all_goals simp [List.length_take]
  · intro now p hops h hsorted
    unfold etherscanFetch at h
    dsimp only at h
    split_ifs at h
    all_goals cases h
    all_goals first
      | exact List.Pairwise.nil
      | (refine List.Pairwise.sublist (List.take_sublist _ _) ?_
         rw [List.pairwise_map] at hsorted ⊢
         exact hsorted.imp (fun hab => hab))


/-- A blockchain.com payload whose two transactions arrive oldest first. -/
def c5BtcPayload : BtcPayload :=
  { txs := [⟨some "h1", some 5, [⟨some ⟨some "i"⟩, none⟩], [⟨some "o", some 100000000⟩]⟩,
            ⟨some "h2", some 9, [⟨some ⟨some "j"⟩, none⟩], [⟨some "k", some 50000000⟩]⟩] }

/-- An Etherscan payload whose transactions already arrive newest first. -/
def c5DescPayload : EtherscanPayload :=
  { status := "1", message := "OK",
    result := [⟨some "a", some "0xsender", some "0xdst", some 9, some 5⟩,
               ⟨some "b", some "0xsender", some "0xdst", some 3, some 5⟩] }

/-- C5 witness: on concrete payloads, the blockchain.com client caps and
sorts an out-of-order payload, and the Etherscan client caps and keeps an
already-descending payload descending. -/
theorem explorer_hops_cap_and_order_witness :
    (blockchainComHops 0 c5BtcPayload).length ≤ 200 ∧
    sortedDescByTimestamp (blockchainComHops 0 c5BtcPayload) ∧
    ((c5DescPayload.result.map (etherscanItemToHop 0)).take 200).length ≤ 200 ∧
    sortedDescByTimestamp ((c5DescPayload.result.map (etherscanItemToHop 0)).take 200) := by
  have h1 := explorer_hops_cap_and_order.1 .bitcoin 0 c5BtcPayload _ rfl
  have h2 := explorer_hops_cap_and_order.2.1 0 c5DescPayload _ rfl
  have h3 := explorer_hops_cap_and_order.2.2 0 c5DescPayload _ rfl (by decide)
  exact ⟨h1.1, h1.2, h2, h3⟩

/-- `compressBlock` always yields the eight running hash words. -/
theorem length_compressBlock (hs block : List ℕ) : (compressBlock hs block).length = 8 := rfl

/-- Folding `compressBlock` preserves the eight-word hash state. -/
theorem length_foldl_compressBlock (blocks : List (List ℕ)) (hs : List ℕ)
    (h : hs.length = 8) : (blocks.foldl compressBlock hs).length = 8 := by
  induction blocks generalizing hs with
  | nil => simpa using h
  | cons b t ih => exact ih _ (length_compressBlock _ _)

/-- `beBytes n` always yields `n` bytes. -/
theorem length_beBytes (n x : ℕ) : (beBytes n x).length = n := by simp [beBytes]

/-- A SHA-256 digest is 32 bytes. -/
theorem sha256_length (msg : List ℕ) : (sha256 msg).length = 32 := by
  unfold sha256
  dsimp only
  rw [List.length_flatMap]
  have h8 : ((chunks64 (sha256Pad msg)).foldl compressBlock shaH0).length = 8 :=
    length_foldl_compressBlock _ _ rfl
  rw [List.map_congr_left (fun x _ => (Function.comp_apply).trans (length_beBytes 4 x)),
    List.map_const', h8]
  rfl

/-- Validation vector: the SHA-256 digest of the empty message. -/
theorem sha256_nil_vector :
    sha256 [] = [227, 176, 196, 66, 152, 252, 28, 20, 154, 251, 244, 200, 153,
      111, 185, 36, 39, 174, 65, 228, 100, 155, 147, 76, 164, 149, 153, 27,
      120, 82, 184, 85] := by rfl

/-- Validation vector: the SHA-256 digest of the ASCII bytes of "abc". -/
theorem sha256_abc_vector :
    sha256 [97, 98, 99] = [186, 120, 22, 191, 143, 1, 207, 234, 65, 65, 64,
      222, 93, 174, 34, 35, 176, 3, 97, 163, 150, 23, 122, 156, 180, 16, 255,
      97, 242, 0, 21, 173] := by rfl

/-- The prepend-style division loop equals the digit list read most
significant first. -/
theorem b58EncodeLoop_eq (num : ℕ) (acc : List Char) :
    b58EncodeLoop num acc =
      ((b58DigitsRev num).reverse.map (fun d => b58Alphabet.getD d '1')) ++ acc := by
  induction num using Nat.strong_induction_on generalizing acc with
  | _ n ih =>
    unfold b58EncodeLoop b58DigitsRev
    split_ifs with h
    · simp
    · rw [ih (n / 58) (Nat.div_lt_self (Nat.pos_of_ne_zero h) (by norm_num))]
      simp [List.map_append, List.append_assoc]

/-- A big-endian byte fold is zero only when the accumulator and every
byte are zero. -/
theorem foldl_mul_add_eq_zero (l : List ℕ) (acc : ℕ)
    (h : l.foldl (fun a b => a * 256 + b) acc = 0) :
    acc = 0 ∧ ∀ x ∈ l, x = 0 := by
  induction l generalizing acc with
  | nil => exact ⟨h, by simp⟩
  | cons b t ih =>
      obtain ⟨hab, hall⟩ := ih (acc * 256 + b) h
      have hacc : acc = 0 := by omega
      have hb : b = 0 := by omega
      exact ⟨hacc, by simpa [hb] using hall⟩

/-- A list of zero bytes consists entirely of leading zeros. -/
theorem countLeadingZeroBytes_all_zero (l : List ℕ) (h : ∀ x ∈ l, x = 0) :
    countLeadingZeroBytes l = l.length := by
  induction l with
  | nil => rfl
  | cons b t ih =>
      have hb : b = 0 := h b (List.mem_cons_self b t)
      simp [countLeadingZeroBytes, hb, ih (fun x hx => h x (List.mem_cons_of_mem b hx))]

/-- C8: the TRON identifier conversion is exactly the base58-check
encoding the spec describes — a 4-byte checksum equal to the first 4 bytes
of the double SHA-256 of the payload is appended, the checksummed payload
is read as a big integer and repeatedly divided by 58 with remainders
mapped through the fixed 58-character alphabet, and one literal `'1'` is
prepended per leading zero byte; `_tron_address` routes long all-hex
identifiers through this encoding. -/
theorem base58check_encode_matches_spec :
    (∀ data, base58checkEncode data = base58checkEncodeSpec data) ∧
    (∀ (s : String) (data : List ℕ), pyStrip s = s → s ≠ "" → s ≠ "Неизвестно" →
      pyStartsWith s "T" = false → s.toList.all isHexChar = true → 42 ≤ s.length →
      hexPairsToBytes s.toList = some data →
      tronAddress (some s) = base58checkEncode data) := by
  constructor
  · intro data
    unfold base58checkEncode base58checkEncodeSpec
    dsimp only
    rw [b58EncodeLoop_eq, List.append_nil]
    rw [show ∀ (l1 l2 : List Char), String.mk l1 ++ String.mk l2 = String.mk (l1 ++ l2)
      from fun _ _ => rfl]
    rw [if_neg]
    intro hcontr
    have hnil : List.replicate
        (countLeadingZeroBytes (data ++ (sha256 (sha256 data)).take 4)) '1' ++
        ((b58DigitsRev (bytesToNatBE (data ++ (sha256 (sha256 data)).take 4))).reverse.map
          (fun d => b58Alphabet.getD d '1')) = [] := congrArg String.data hcontr
    rw [List.append_eq_nil] at hnil
    obtain ⟨hrep, hdig⟩ := hnil
    rw [List.replicate_eq_nil_iff] at hrep
    by_cases hnum : bytesToNatBE (data ++ (sha256 (sha256 data)).take 4) = 0
    · have hzero := foldl_mul_add_eq_zero _ 0 hnum
      have hcount := countLeadingZeroBytes_all_zero _ hzero.2
      rw [hcount] at hrep
      have hlen : ((sha256 (sha256 data)).take 4).length = 4 := by
        rw [List.length_take, sha256_length]
        norm_num
      rw [List.length_append, hlen] at hrep
      omega
    · rw [List.map_eq_nil_iff, List.reverse_eq_nil_iff] at hdig
      unfold b58DigitsRev at hdig
      rw [dif_neg hnum] at hdig
      exact List.cons_ne_nil _ _ hdig
  · intro s data htrim hne hsent hT hhex hlen hbytes
    unfold tronAddress
    rw [show safeAddress (some s) = s by simp [safeAddress, htrim, hne]]
    rw [if_neg hsent, if_neg (by simp [hT]), if_pos ⟨hhex, hlen⟩, hbytes]

/-- C8 witness: a concrete 42-character hex identifier is converted, and
the source encoding agrees with the spec's description on its bytes. -/
theorem base58check_encode_matches_spec_witness :
    tronAddress (some "41aaaaaaaaaaaaaaaaaaaaaaaaaaaaaaaaaaaaaaaa") =
      base58checkEncode (65 :: List.replicate 20 170) ∧
    base58checkEncode (65 :: List.replicate 20 170) =
      base58checkEncodeSpec (65 :: List.replicate 20 170) :=
  ⟨base58check_encode_matches_spec.2 "41aaaaaaaaaaaaaaaaaaaaaaaaaaaaaaaaaaaaaaaa"
      (65 :: List.replicate 20 170) (by decide) (by decide) (by decide)
      (by decide) (by decide) (by decide) (by decide),
   base58check_encode_matches_spec.1 (65 :: List.replicate 20 170)⟩

end ArcheBlow
